import Mathlib

/-!
# Verification of `image_geometry/cameramodels.py`

A shallow embedding of the monocular (`PinholeCameraModel`) and stereo
(`StereoCameraModel`) camera models.  Python `float` arithmetic is modelled
with exact rationals (`ℚ`); the square root used when normalising a ray is
modelled over `ℝ`.  The Python division semantics are kept faithfully:

* The float infinity results of the guarded divisions (`getZ`, `getDisparity`,
  `getDeltaU`, `getDeltaV`) are modelled by the explicit value `ExtVal.inf`;
* an *unguarded* Python division whose denominator is `0.0` raises
  `ZeroDivisionError`; such calls are modelled with `Option`, where
  `none` is the raised exception.
-/

/-- A Python float result that is either a finite value or the positive
infinity returned by the guarded divisions of the source. -/
inductive ExtVal
  | fin (q : ℚ)
  | inf
deriving DecidableEq

/-- Result of the monocular projection `project3dToPixel`: either a finite
pixel pair, or the NaN pair returned when the
homogeneous coordinate `w` is zero. -/
inductive PixelResult
  | px (u v : ℚ)
  | nanPair
deriving DecidableEq

/-- Message type `sensor_msgs.msg.RegionOfInterest`: the ROI block of a `CameraInfo`
message (all fields are unsigned integers). -/
structure RegionOfInterest where
  x_offset : ℕ
  y_offset : ℕ
  width : ℕ
  height : ℕ
deriving DecidableEq

/-- The header of a `CameraInfo` message: the reference-frame identifier and
the timestamp (passed through unmodified). -/
structure MsgHeader where
  frame_id : String
  stamp : ℤ
deriving DecidableEq

/-- Message type `sensor_msgs.msg.CameraInfo`: the raw calibration parameters consumed by
`fromCameraInfo`.  `K`, `R`, `P` are row-major flat lists (9, 9 and 12
entries); `D` has variable length and may be empty. -/
structure CameraInfo where
  header : MsgHeader
  height : ℕ
  width : ℕ
  D : List ℚ
  K : List ℚ
  R : List ℚ
  P : List ℚ
  binning_x : ℕ
  binning_y : ℕ
  roi : RegionOfInterest
deriving DecidableEq

/-- Helper `mkmat(rows, cols, L)`: a `rows × cols` matrix over the row-major flat
list `L` (entry `(i, j)` is `L[i*cols + j]`). -/
def mkmat (rows cols : ℕ) (L : List ℚ) : Fin rows → Fin cols → ℚ :=
  fun i j => L.getD (i.val * cols + j.val) 0

/-- The state of a `PinholeCameraModel` after `fromCameraInfo`: the fields
set in `__init__` / `fromCameraInfo` of the source. -/
structure PinholeCameraModel where
  K : Fin 3 → Fin 3 → ℚ
  D : Option (List ℚ)
  R : Fin 3 → Fin 3 → ℚ
  P : Fin 3 → Fin 4 → ℚ
  full_K : Fin 3 → Fin 3 → ℚ
  full_P : Fin 3 → Fin 4 → ℚ
  width : ℕ
  height : ℕ
  binning_x : ℕ
  binning_y : ℕ
  raw_roi : RegionOfInterest
  tf_frame : String
  stamp : ℤ
deriving DecidableEq

/-- Method `PinholeCameraModel.fromCameraInfo(msg)`: set the camera parameters from
a `CameraInfo` message.  Binning factors are clamped to at least 1, the
all-zero ROI sentinel is replaced by the full-resolution ROI, and the four
affected entries of `K` and `P` are adjusted for binning and ROI. -/
def PinholeCameraModel.fromCameraInfo (msg : CameraInfo) : PinholeCameraModel :=
  let width := msg.width
  let height := msg.height
  let binning_x := max 1 msg.binning_x
  let binning_y := max 1 msg.binning_y
  -- ROI all zeros is considered the same as full resolution
  let raw_roi : RegionOfInterest :=
    if msg.roi.x_offset = 0 ∧ msg.roi.y_offset = 0 ∧
        msg.roi.width = 0 ∧ msg.roi.height = 0 then
      { msg.roi with width := width, height := height }
    else msg.roi
  let K0 := mkmat 3 3 msg.K
  let P0 := mkmat 3 4 msg.P
  -- Adjust K and P for binning and ROI
  let K : Fin 3 → Fin 3 → ℚ := fun i j =>
    if i = 0 ∧ j = 0 then K0 0 0 / (binning_x : ℚ)
    else if i = 1 ∧ j = 1 then K0 1 1 / (binning_y : ℚ)
    else if i = 0 ∧ j = 2 then (K0 0 2 - (raw_roi.x_offset : ℚ)) / (binning_x : ℚ)
    else if i = 1 ∧ j = 2 then (K0 1 2 - (raw_roi.y_offset : ℚ)) / (binning_y : ℚ)
    else K0 i j
  let P : Fin 3 → Fin 4 → ℚ := fun i j =>
    if i = 0 ∧ j = 0 then P0 0 0 / (binning_x : ℚ)
    else if i = 1 ∧ j = 1 then P0 1 1 / (binning_y : ℚ)
    else if i = 0 ∧ j = 2 then (P0 0 2 - (raw_roi.x_offset : ℚ)) / (binning_x : ℚ)
    else if i = 1 ∧ j = 2 then (P0 1 2 - (raw_roi.y_offset : ℚ)) / (binning_y : ℚ)
    else P0 i j
  { K := K
    D := if msg.D = [] then none else some msg.D
    R := mkmat 3 3 msg.R
    P := P
    full_K := K0
    full_P := P0
    width := width
    height := height
    binning_x := binning_x
    binning_y := binning_y
    raw_roi := raw_roi
    tf_frame := msg.header.frame_id
    stamp := msg.header.stamp }

/-- Accessor `cx()`: returns `P[0,2]`. -/
def PinholeCameraModel.cx (m : PinholeCameraModel) : ℚ := m.P 0 2

/-- Accessor `cy()`: returns `P[1,2]`. -/
def PinholeCameraModel.cy (m : PinholeCameraModel) : ℚ := m.P 1 2

/-- Accessor `fx()`: returns `P[0,0]`. -/
def PinholeCameraModel.fx (m : PinholeCameraModel) : ℚ := m.P 0 0

/-- Accessor `fy()`: returns `P[1,1]`. -/
def PinholeCameraModel.fy (m : PinholeCameraModel) : ℚ := m.P 1 1

/-- Accessor `Tx()`: returns `P[0,3]`. -/
def PinholeCameraModel.Tx (m : PinholeCameraModel) : ℚ := m.P 0 3

/-- Accessor `Ty()`: returns `P[1,3]`. -/
def PinholeCameraModel.Ty (m : PinholeCameraModel) : ℚ := m.P 1 3

/-- Accessor `intrinsicMatrix()`: returns `K`. -/
def PinholeCameraModel.intrinsicMatrix (m : PinholeCameraModel) : Fin 3 → Fin 3 → ℚ := m.K

/-- Accessor `distortionCoeffs()`: returns `D`. -/
def PinholeCameraModel.distortionCoeffs (m : PinholeCameraModel) : Option (List ℚ) := m.D

/-- Accessor `rotationMatrix()`: returns `R`. -/
def PinholeCameraModel.rotationMatrix (m : PinholeCameraModel) : Fin 3 → Fin 3 → ℚ := m.R

/-- Accessor `projectionMatrix()`: returns `P`. -/
def PinholeCameraModel.projectionMatrix (m : PinholeCameraModel) : Fin 3 → Fin 4 → ℚ := m.P

/-- Accessor `fullIntrinsicMatrix()`: returns `full_K`. -/
def PinholeCameraModel.fullIntrinsicMatrix (m : PinholeCameraModel) : Fin 3 → Fin 3 → ℚ := m.full_K

/-- Accessor `fullProjectionMatrix()`: returns `full_P`. -/
def PinholeCameraModel.fullProjectionMatrix (m : PinholeCameraModel) : Fin 3 → Fin 4 → ℚ := m.full_P

/-- Method `project3dToPixel(point)`: multiply `P` (3x4) by the homogeneous column
`[x, y, z, 1]` (the `cv.MatMul` of the source, written out row by row) and
dehomogenise, returning the `(nan, nan)` pair when `w` is zero. -/
def PinholeCameraModel.project3dToPixel (m : PinholeCameraModel) (point : ℚ × ℚ × ℚ) :
    PixelResult :=
  let x := m.P 0 0 * point.1 + m.P 0 1 * point.2.1 + m.P 0 2 * point.2.2 + m.P 0 3 * 1
  let y := m.P 1 0 * point.1 + m.P 1 1 * point.2.1 + m.P 1 2 * point.2.2 + m.P 1 3 * 1
  let w := m.P 2 0 * point.1 + m.P 2 1 * point.2.1 + m.P 2 2 * point.2.2 + m.P 2 3 * 1
  if w ≠ 0 then .px (x / w) (y / w) else .nanPair

/-- Method `projectPixelTo3dRay(uv)`: the unit vector from the camera centre
through rectified pixel `(u, v)`.  The source divides by `self.fx()` and
`self.fy()` without a guard; a Python float division by zero raises
`ZeroDivisionError`, modelled here by `none`.  The normalisation square
root is modelled over `ℝ`. -/
noncomputable def PinholeCameraModel.projectPixelTo3dRay (m : PinholeCameraModel)
    (uv : ℚ × ℚ) : Option (ℝ × ℝ × ℝ) :=
  if m.fx = 0 ∨ m.fy = 0 then none
  else
    let x : ℝ := (((uv.1 - m.cx) / m.fx : ℚ) : ℝ)
    let y : ℝ := (((uv.2 - m.cy) / m.fy : ℚ) : ℝ)
    let norm := Real.sqrt (x * x + y * y + 1)
    some (x / norm, y / norm, 1 / norm)

/-- Method `getDeltaU(deltaX, Z)`: computes `fx * deltaX / Z`, or the float infinity when
`Z == 0` (the guard of the source). -/
def PinholeCameraModel.getDeltaU (m : PinholeCameraModel) (deltaX Z : ℚ) : ExtVal :=
  let fx := m.P 0 0
  if Z = 0 then .inf else .fin (fx * deltaX / Z)

/-- Method `getDeltaV(deltaY, Z)`: computes `fy * deltaY / Z`, or the float infinity when
`Z == 0`. -/
def PinholeCameraModel.getDeltaV (m : PinholeCameraModel) (deltaY Z : ℚ) : ExtVal :=
  let fy := m.P 1 1
  if Z = 0 then .inf else .fin (fy * deltaY / Z)

/-- Method `getDeltaX(deltaU, Z)`: computes `Z * deltaU / fx`, with no guard.
When `fx == 0` the Python division raises `ZeroDivisionError` (`none`). -/
def PinholeCameraModel.getDeltaX (m : PinholeCameraModel) (deltaU Z : ℚ) : Option ℚ :=
  let fx := m.P 0 0
  if fx = 0 then none else some (Z * deltaU / fx)

/-- Method `getDeltaY(deltaV, Z)`: computes `Z * deltaV / fy`, with no guard; `fy == 0`
raises `ZeroDivisionError` (`none`). -/
def PinholeCameraModel.getDeltaY (m : PinholeCameraModel) (deltaV Z : ℚ) : Option ℚ :=
  let fy := m.P 1 1
  if fy = 0 then none else some (Z * deltaV / fy)

/-- Python attribute lookup of a `tfFrame` method on `PinholeCameraModel`.
The class defines no method of that name (its methods are `fromCameraInfo`,
`rectifyImage`, `rectifyPoint`, `project3dToPixel`, `projectPixelTo3dRay`,
`getDeltaU`, `getDeltaV`, `getDeltaX`, `getDeltaY` and the plain accessors),
so the lookup fails with `AttributeError`; `none` models that failure. -/
def PinholeCameraModel.tfFrameLookup (_ : PinholeCameraModel) : Option String := none

/-- The state of a `StereoCameraModel`: two pinhole models plus the derived
4x4 reprojection matrix `Q`. -/
structure StereoCameraModel where
  left : PinholeCameraModel
  right : PinholeCameraModel
  Q : Fin 4 → Fin 4 → ℚ
deriving DecidableEq

/-- Method `StereoCameraModel.fromCameraInfo(left_msg, right_msg)`: calibrate both
pinhole models, then derive `Q` from the adjusted `P` of the right camera.
The source computes `tx = -right.P[0,3] / fx` and then `Q[3,2] = 1 / tx`
with plain Python float divisions: when `fx == 0` the first division
raises `ZeroDivisionError`, and when `tx == 0` the second one does.
Both raised errors are modelled by `none`. -/
def StereoCameraModel.fromCameraInfo (left_msg right_msg : CameraInfo) :
    Option StereoCameraModel :=
  let left := PinholeCameraModel.fromCameraInfo left_msg
  let right := PinholeCameraModel.fromCameraInfo right_msg
  let fx := right.P 0 0
  let cx := right.P 0 2
  let cy := right.P 1 2
  if fx = 0 then none
  else
    let tx := -(right.P 0 3) / fx
    if tx = 0 then none
    else
      some { left := left
             right := right
             Q := fun i j =>
               if i = 0 ∧ j = 0 then 1
               else if i = 0 ∧ j = 3 then -cx
               else if i = 1 ∧ j = 1 then 1
               else if i = 1 ∧ j = 3 then -cy
               else if i = 2 ∧ j = 3 then fx
               else if i = 3 ∧ j = 2 then 1 / tx
               else 0 }

/-- Method `StereoCameraModel.tfFrame()`: the source returns
`self.left.tfFrame()`, a method-call on the left pinhole model. -/
def StereoCameraModel.tfFrame (s : StereoCameraModel) : Option String :=
  s.left.tfFrameLookup

/-- Stereo `project3dToPixel(point)`: delegates to the monocular
projection of each camera. -/
def StereoCameraModel.project3dToPixel (s : StereoCameraModel) (point : ℚ × ℚ × ℚ) :
    PixelResult × PixelResult :=
  (s.left.project3dToPixel point, s.right.project3dToPixel point)

/-- Stereo `projectPixelTo3d(left_uv, disparity)`: multiply `Q` (4x4) by the
homogeneous column `[u, v, disparity, 1]` (the `cv.MatMul` of the source)
and dehomogenise, returning the zero triple when `w` is zero. -/
def StereoCameraModel.projectPixelTo3d (s : StereoCameraModel) (left_uv : ℚ × ℚ)
    (disparity : ℚ) : ℚ × ℚ × ℚ :=
  let x := s.Q 0 0 * left_uv.1 + s.Q 0 1 * left_uv.2 + s.Q 0 2 * disparity + s.Q 0 3 * 1
  let y := s.Q 1 0 * left_uv.1 + s.Q 1 1 * left_uv.2 + s.Q 1 2 * disparity + s.Q 1 3 * 1
  let z := s.Q 2 0 * left_uv.1 + s.Q 2 1 * left_uv.2 + s.Q 2 2 * disparity + s.Q 2 3 * 1
  let w := s.Q 3 0 * left_uv.1 + s.Q 3 1 * left_uv.2 + s.Q 3 2 * disparity + s.Q 3 3 * 1
  if w ≠ 0 then (x / w, y / w, z / w) else (0, 0, 0)

/-- Method `getZ(disparity)`: computes `Tx / disparity` with `Tx = -right.P[0,3]`, or
the float infinity when `disparity == 0`. -/
def StereoCameraModel.getZ (s : StereoCameraModel) (disparity : ℚ) : ExtVal :=
  if disparity = 0 then .inf
  else .fin (-(s.right.P 0 3) / disparity)

/-- Method `getDisparity(Z)`: computes `Tx / Z` with `Tx = -right.P[0,3]`, or the float
infinity when `Z == 0`. -/
def StereoCameraModel.getDisparity (s : StereoCameraModel) (Z : ℚ) : ExtVal :=
  if Z = 0 then .inf
  else .fin (-(s.right.P 0 3) / Z)

/-- Dot product of two 3-vectors over `ℝ`. -/
def dot3 (a b : ℝ × ℝ × ℝ) : ℝ :=
  a.1 * b.1 + a.2.1 * b.2.1 + a.2.2 * b.2.2

/-- Euclidean norm of a 3-vector over `ℝ`. -/
noncomputable def norm3 (a : ℝ × ℝ × ℝ) : ℝ :=
  Real.sqrt (a.1 ^ 2 + a.2.1 ^ 2 + a.2.2 ^ 2)

/-- A 3-vector scaled to unit Euclidean norm. -/
noncomputable def normalize3 (a : ℝ × ℝ × ℝ) : ℝ × ℝ × ℝ :=
  (a.1 / norm3 a, a.2.1 / norm3 a, a.2.2 / norm3 a)

/-- The standard adjusted projection matrix of a monocular camera with zero
translation column: rows `[fx, 0, cx, 0]`, `[0, fy, cy, 0]`, `[0, 0, 1, 0]`. -/
def stdP (pfx pfy pcx pcy : ℚ) : Fin 3 → Fin 4 → ℚ := fun i j =>
  if i = 0 ∧ j = 0 then pfx
  else if i = 0 ∧ j = 2 then pcx
  else if i = 1 ∧ j = 1 then pfy
  else if i = 1 ∧ j = 2 then pcy
  else if i = 2 ∧ j = 2 then 1
  else 0

/-- A left-camera `CameraInfo` matching the concrete scenario of the spec:
`K = [500,0,320; 0,500,240; 0,0,1]`, `P = [500,0,320,0; 0,500,240,0; 0,0,1,0]`,
640x480, no binning, all-zero ROI sentinel. -/
def msgW : CameraInfo :=
  { header := { frame_id := "left_camera", stamp := 7 }
    height := 480
    width := 640
    D := []
    K := [500, 0, 320, 0, 500, 240, 0, 0, 1]
    R := [1, 0, 0, 0, 1, 0, 0, 0, 1]
    P := [500, 0, 320, 0, 0, 500, 240, 0, 0, 0, 1, 0]
    binning_x := 1
    binning_y := 1
    roi := ⟨0, 0, 0, 0⟩ }

/-- A right-camera `CameraInfo` with baseline term `P[0,3] = -50000`
(fx = 500, baseline 100). -/
def msgR : CameraInfo :=
  { header := { frame_id := "right_camera", stamp := 7 }
    height := 480
    width := 640
    D := []
    K := [500, 0, 320, 0, 500, 240, 0, 0, 1]
    R := [1, 0, 0, 0, 1, 0, 0, 0, 1]
    P := [500, 0, 320, -50000, 0, 500, 240, 0, 0, 0, 1, 0]
    binning_x := 1
    binning_y := 1
    roi := ⟨0, 0, 0, 0⟩ }

/-- A degenerate `CameraInfo` whose `K` and `P` are all zero (in particular
`fx = P[0,0] = 0`), with `binning_x = 0` exercising the `max(1, ·)` clamp. -/
def msg0 : CameraInfo :=
  { header := { frame_id := "zero_camera", stamp := 0 }
    height := 480
    width := 640
    D := []
    K := [0, 0, 0, 0, 0, 0, 0, 0, 0]
    R := [1, 0, 0, 0, 1, 0, 0, 0, 1]
    P := [0, 0, 0, 0, 0, 0, 0, 0, 0, 0, 0, 0]
    binning_x := 0
    binning_y := 0
    roi := ⟨0, 0, 0, 0⟩ }

/-- A `CameraInfo` like `msgW` but with a nonzero translation term
`P[0,3] = 100`. -/
def msgTx : CameraInfo :=
  { header := { frame_id := "tx_camera", stamp := 7 }
    height := 480
    width := 640
    D := []
    K := [500, 0, 320, 0, 500, 240, 0, 0, 1]
    R := [1, 0, 0, 0, 1, 0, 0, 0, 1]
    P := [500, 0, 320, 100, 0, 500, 240, 0, 0, 0, 1, 0]
    binning_x := 1
    binning_y := 1
    roi := ⟨0, 0, 0, 0⟩ }

/-- The effective ROI computed by `fromCameraInfo` (the `raw_roi` field):
the message ROI, with the all-zero sentinel resolved to full resolution. -/
theorem fromCameraInfo_raw_roi (msg : CameraInfo) :
    (PinholeCameraModel.fromCameraInfo msg).raw_roi =
      if msg.roi.x_offset = 0 ∧ msg.roi.y_offset = 0 ∧
          msg.roi.width = 0 ∧ msg.roi.height = 0 then
        { msg.roi with width := msg.width, height := msg.height }
      else msg.roi := rfl

/-- The effective ROI x-offset always agrees with the message ROI x-offset
(the sentinel resolution only changes the ROI width and height). -/
theorem fromCameraInfo_roi_x (msg : CameraInfo) :
    (PinholeCameraModel.fromCameraInfo msg).raw_roi.x_offset = msg.roi.x_offset := by
  rw [fromCameraInfo_raw_roi]
  split <;> rfl

/-- The effective ROI y-offset always agrees with the message ROI y-offset. -/
theorem fromCameraInfo_roi_y (msg : CameraInfo) :
    (PinholeCameraModel.fromCameraInfo msg).raw_roi.y_offset = msg.roi.y_offset := by
  rw [fromCameraInfo_raw_roi]
  split <;> rfl

/-- The adjusted `K` of `fromCameraInfo`, as a function of the message. -/
theorem fromCameraInfo_K (msg : CameraInfo) :
    (PinholeCameraModel.fromCameraInfo msg).K = fun i j =>
      if i = 0 ∧ j = 0 then
        mkmat 3 3 msg.K 0 0 / ((max 1 msg.binning_x : ℕ) : ℚ)
      else if i = 1 ∧ j = 1 then
        mkmat 3 3 msg.K 1 1 / ((max 1 msg.binning_y : ℕ) : ℚ)
      else if i = 0 ∧ j = 2 then
        (mkmat 3 3 msg.K 0 2 - ((PinholeCameraModel.fromCameraInfo msg).raw_roi.x_offset : ℚ)) /
          ((max 1 msg.binning_x : ℕ) : ℚ)
      else if i = 1 ∧ j = 2 then
        (mkmat 3 3 msg.K 1 2 - ((PinholeCameraModel.fromCameraInfo msg).raw_roi.y_offset : ℚ)) /
          ((max 1 msg.binning_y : ℕ) : ℚ)
      else mkmat 3 3 msg.K i j := rfl

/-- The adjusted `P` of `fromCameraInfo`, as a function of the message. -/
theorem fromCameraInfo_P (msg : CameraInfo) :
    (PinholeCameraModel.fromCameraInfo msg).P = fun i j =>
      if i = 0 ∧ j = 0 then
        mkmat 3 4 msg.P 0 0 / ((max 1 msg.binning_x : ℕ) : ℚ)
      else if i = 1 ∧ j = 1 then
        mkmat 3 4 msg.P 1 1 / ((max 1 msg.binning_y : ℕ) : ℚ)
      else if i = 0 ∧ j = 2 then
        (mkmat 3 4 msg.P 0 2 - ((PinholeCameraModel.fromCameraInfo msg).raw_roi.x_offset : ℚ)) /
          ((max 1 msg.binning_x : ℕ) : ℚ)
      else if i = 1 ∧ j = 2 then
        (mkmat 3 4 msg.P 1 2 - ((PinholeCameraModel.fromCameraInfo msg).raw_roi.y_offset : ℚ)) /
          ((max 1 msg.binning_y : ℕ) : ℚ)
      else mkmat 3 4 msg.P i j := rfl

/-- Claim C1: `fromCameraInfo` clamps the binning factors with
`max(1, ·)`, replaces an all-zero ROI by `(0, 0, width, height)`, and
produces the adjusted `K` and `P` as copies of the raw matrices with
`K[0,0] /= binning_x`, `K[1,1] /= binning_y`,
`K[0,2] = (K[0,2] - roi.x_offset) / binning_x`,
`K[1,2] = (K[1,2] - roi.y_offset) / binning_y`, the same four adjustments
on `P`, and every other entry unchanged; moreover with width 640 and
height 480 the all-zero ROI produces the same adjusted `K`, `P` as the
ROI `(0, 0, 640, 480)`. -/
theorem C1_fromCameraInfo_adjustment (msg : CameraInfo) :
    (PinholeCameraModel.fromCameraInfo msg).binning_x = max 1 msg.binning_x ∧
    (PinholeCameraModel.fromCameraInfo msg).binning_y = max 1 msg.binning_y ∧
    (msg.roi = ⟨0, 0, 0, 0⟩ →
      (PinholeCameraModel.fromCameraInfo msg).raw_roi = ⟨0, 0, msg.width, msg.height⟩) ∧
    (PinholeCameraModel.fromCameraInfo msg).K 0 0
      = mkmat 3 3 msg.K 0 0 / ((max 1 msg.binning_x : ℕ) : ℚ) ∧
    (PinholeCameraModel.fromCameraInfo msg).K 1 1
      = mkmat 3 3 msg.K 1 1 / ((max 1 msg.binning_y : ℕ) : ℚ) ∧
    (PinholeCameraModel.fromCameraInfo msg).K 0 2
      = (mkmat 3 3 msg.K 0 2 - (msg.roi.x_offset : ℚ)) / ((max 1 msg.binning_x : ℕ) : ℚ) ∧
    (PinholeCameraModel.fromCameraInfo msg).K 1 2
      = (mkmat 3 3 msg.K 1 2 - (msg.roi.y_offset : ℚ)) / ((max 1 msg.binning_y : ℕ) : ℚ) ∧
    (∀ i j, ¬(i = 0 ∧ j = 0) → ¬(i = 1 ∧ j = 1) → ¬(i = 0 ∧ j = 2) → ¬(i = 1 ∧ j = 2) →
      (PinholeCameraModel.fromCameraInfo msg).K i j = mkmat 3 3 msg.K i j) ∧
    (PinholeCameraModel.fromCameraInfo msg).P 0 0
      = mkmat 3 4 msg.P 0 0 / ((max 1 msg.binning_x : ℕ) : ℚ) ∧
    (PinholeCameraModel.fromCameraInfo msg).P 1 1
      = mkmat 3 4 msg.P 1 1 / ((max 1 msg.binning_y : ℕ) : ℚ) ∧
    (PinholeCameraModel.fromCameraInfo msg).P 0 2
      = (mkmat 3 4 msg.P 0 2 - (msg.roi.x_offset : ℚ)) / ((max 1 msg.binning_x : ℕ) : ℚ) ∧
    (PinholeCameraModel.fromCameraInfo msg).P 1 2
      = (mkmat 3 4 msg.P 1 2 - (msg.roi.y_offset : ℚ)) / ((max 1 msg.binning_y : ℕ) : ℚ) ∧
    (∀ i j, ¬(i = 0 ∧ j = 0) → ¬(i = 1 ∧ j = 1) → ¬(i = 0 ∧ j = 2) → ¬(i = 1 ∧ j = 2) →
      (PinholeCameraModel.fromCameraInfo msg).P i j = mkmat 3 4 msg.P i j) ∧
    (msg.width = 640 → msg.height = 480 →
      (PinholeCameraModel.fromCameraInfo { msg with roi := ⟨0, 0, 0, 0⟩ }).K
        = (PinholeCameraModel.fromCameraInfo { msg with roi := ⟨0, 0, 640, 480⟩ }).K ∧
      (PinholeCameraModel.fromCameraInfo { msg with roi := ⟨0, 0, 0, 0⟩ }).P
        = (PinholeCameraModel.fromCameraInfo { msg with roi := ⟨0, 0, 640, 480⟩ }).P) := by
  refine ⟨rfl, rfl,
          fun h => by rw [fromCameraInfo_raw_roi]; simp [h],
          by rw [fromCameraInfo_K]; simp +decide,
          by rw [fromCameraInfo_K]; simp +decide,
          by rw [fromCameraInfo_K, fromCameraInfo_roi_x]; simp +decide,
          by rw [fromCameraInfo_K, fromCameraInfo_roi_y]; simp +decide,
          ?_,
          by rw [fromCameraInfo_P]; simp +decide,
          by rw [fromCameraInfo_P]; simp +decide,
          by rw [fromCameraInfo_P, fromCameraInfo_roi_x]; simp +decide,
          by rw [fromCameraInfo_P, fromCameraInfo_roi_y]; simp +decide,
          ?_, ?_⟩
  · intro i j h1 h2 h3 h4
    rw [fromCameraInfo_K]
    show (if _ then _ else _) = _
    rw [if_neg h1, if_neg h2, if_neg h3, if_neg h4]
  · intro i j h1 h2 h3 h4
    rw [fromCameraInfo_P]
    show (if _ then _ else _) = _
    rw [if_neg h1, if_neg h2, if_neg h3, if_neg h4]
  · intro hw hh
    constructor
    · rw [fromCameraInfo_K, fromCameraInfo_K]
      simp [hw, hh, fromCameraInfo_roi_x, fromCameraInfo_roi_y]
    · rw [fromCameraInfo_P, fromCameraInfo_P]
      simp [hw, hh, fromCameraInfo_roi_x, fromCameraInfo_roi_y]

/-- Witness for C1 at the concrete message `msgW` (width 640, height 480,
all-zero ROI): the sentinel is resolved to `(0, 0, 640, 480)` and the
all-zero ROI yields the same adjusted matrices as `(0, 0, 640, 480)`. -/
theorem C1_fromCameraInfo_adjustment_witness :
    (PinholeCameraModel.fromCameraInfo msgW).raw_roi = ⟨0, 0, 640, 480⟩ ∧
    (PinholeCameraModel.fromCameraInfo { msgW with roi := ⟨0, 0, 0, 0⟩ }).K
      = (PinholeCameraModel.fromCameraInfo { msgW with roi := ⟨0, 0, 640, 480⟩ }).K := by
  obtain ⟨-, -, hs, -, -, -, -, -, -, -, -, -, -, h640⟩ := C1_fromCameraInfo_adjustment msgW
  exact ⟨hs rfl, (h640 rfl rfl).1⟩

/-- Claim C2: the monocular projection computes `[X, Y, W] = P · [x, y, z, 1]`
and returns `(X/W, Y/W)` when `W ≠ 0` and the NaN pair when `W = 0`; the
stereo back-projection computes `[X, Y, Z, W] = Q · [u, v, d, 1]` and returns
`(X/W, Y/W, Z/W)` when `W ≠ 0` and the zero triple when `W = 0` — the
NaN-pair versus zero-triple asymmetry is preserved exactly. -/
theorem C2_projection_formulas (m : PinholeCameraModel) (s : StereoCameraModel)
    (x y z u v d : ℚ) :
    m.project3dToPixel (x, y, z) =
      (if m.P 2 0 * x + m.P 2 1 * y + m.P 2 2 * z + m.P 2 3 = 0 then
        PixelResult.nanPair
      else
        PixelResult.px
          ((m.P 0 0 * x + m.P 0 1 * y + m.P 0 2 * z + m.P 0 3) /
            (m.P 2 0 * x + m.P 2 1 * y + m.P 2 2 * z + m.P 2 3))
          ((m.P 1 0 * x + m.P 1 1 * y + m.P 1 2 * z + m.P 1 3) /
            (m.P 2 0 * x + m.P 2 1 * y + m.P 2 2 * z + m.P 2 3))) ∧
    s.projectPixelTo3d (u, v) d =
      (if s.Q 3 0 * u + s.Q 3 1 * v + s.Q 3 2 * d + s.Q 3 3 = 0 then
        ((0 : ℚ), (0 : ℚ), (0 : ℚ))
      else
        ((s.Q 0 0 * u + s.Q 0 1 * v + s.Q 0 2 * d + s.Q 0 3) /
          (s.Q 3 0 * u + s.Q 3 1 * v + s.Q 3 2 * d + s.Q 3 3),
         (s.Q 1 0 * u + s.Q 1 1 * v + s.Q 1 2 * d + s.Q 1 3) /
          (s.Q 3 0 * u + s.Q 3 1 * v + s.Q 3 2 * d + s.Q 3 3),
         (s.Q 2 0 * u + s.Q 2 1 * v + s.Q 2 2 * d + s.Q 2 3) /
          (s.Q 3 0 * u + s.Q 3 1 * v + s.Q 3 2 * d + s.Q 3 3))) := by
  constructor
  · simp only [PinholeCameraModel.project3dToPixel, mul_one]
    rcases eq_or_ne (m.P 2 0 * x + m.P 2 1 * y + m.P 2 2 * z + m.P 2 3) 0 with h | h <;>
      simp [h]
  · simp only [StereoCameraModel.projectPixelTo3d, mul_one]
    rcases eq_or_ne (s.Q 3 0 * u + s.Q 3 1 * v + s.Q 3 2 * d + s.Q 3 3) 0 with h | h <;>
      simp [h]

/-- Counterexample to claim C3: with a right camera whose adjusted
`P[0,3]` is zero (so `tx = 0`), Q-construction does not store an infinite
entry — the Python division `1 / tx` raises `ZeroDivisionError`, a trapped
error at construction time, so `fromCameraInfo` produces no model at all. -/
theorem C3_counterexample : StereoCameraModel.fromCameraInfo msgW msgW = none := by
  with_unfolding_all rfl

/-- Claim C3 (amended): when the adjusted right-camera `fx` is nonzero and
`tx = -right.P[0,3]/fx` is nonzero, the stereo `fromCameraInfo` calibrates
left and right with the monocular `fromCameraInfo` and builds `Q` as the
4x4 matrix that is zero except `Q[0,0] = 1`, `Q[0,3] = -cx`, `Q[1,1] = 1`,
`Q[1,3] = -cy`, `Q[2,3] = fx`, `Q[3,2] = 1/tx`; when `tx = 0` the division
`1/tx` raises `ZeroDivisionError` at Q-construction time (see
`C3_counterexample`), it does not store an infinite entry. -/
theorem C3_fromCameraInfo_Q (l r : CameraInfo)
    (hfx : (PinholeCameraModel.fromCameraInfo r).P 0 0 ≠ 0)
    (htx : -(PinholeCameraModel.fromCameraInfo r).P 0 3 /
      (PinholeCameraModel.fromCameraInfo r).P 0 0 ≠ 0) :
    ∃ S, StereoCameraModel.fromCameraInfo l r = some S ∧
      S.left = PinholeCameraModel.fromCameraInfo l ∧
      S.right = PinholeCameraModel.fromCameraInfo r ∧
      ∀ i j, S.Q i j =
        (if i = 0 ∧ j = 0 then 1
        else if i = 0 ∧ j = 3 then -(PinholeCameraModel.fromCameraInfo r).P 0 2
        else if i = 1 ∧ j = 1 then 1
        else if i = 1 ∧ j = 3 then -(PinholeCameraModel.fromCameraInfo r).P 1 2
        else if i = 2 ∧ j = 3 then (PinholeCameraModel.fromCameraInfo r).P 0 0
        else if i = 3 ∧ j = 2 then
          1 / (-(PinholeCameraModel.fromCameraInfo r).P 0 3 /
            (PinholeCameraModel.fromCameraInfo r).P 0 0)
        else 0) := by
  simp only [StereoCameraModel.fromCameraInfo]
  rw [if_neg hfx, if_neg htx]
  exact ⟨_, rfl, rfl, rfl, fun i j => rfl⟩

/-- Witness for the amended C3 at the concrete pair `msgW`, `msgR`:
construction succeeds and `Q[3,2] = 1/tx = 1/100`. -/
theorem C3_fromCameraInfo_Q_witness :
    ∃ S, StereoCameraModel.fromCameraInfo msgW msgR = some S ∧ S.Q 3 2 = 1 / 100 := by
  obtain ⟨S, hS, -, -, hQ⟩ := C3_fromCameraInfo_Q msgW msgR
    (by with_unfolding_all decide) (by with_unfolding_all decide)
  refine ⟨S, hS, ?_⟩
  rw [hQ 3 2]
  with_unfolding_all rfl

/-- Claim C4 is about a code bug: `StereoCameraModel.tfFrame` calls
`self.left.tfFrame()`, but `PinholeCameraModel` defines no `tfFrame`
method, so the call raises `AttributeError` for every stereo model and in
particular never returns the left-camera frame identifier — contradicting
its own docstring ("Returns the tf frame name - a string"). -/
theorem C4_tfFrame_attribute_error (s : StereoCameraModel) :
    s.tfFrame = none ∧ s.tfFrame ≠ some s.left.tf_frame :=
  ⟨rfl, by simp [StereoCameraModel.tfFrame, PinholeCameraModel.tfFrameLookup]⟩

/-- Claim C5: for every calibrated stereo model (with `Tx = -right.P[0,3]`),
`getZ` returns `Tx/disparity` for nonzero disparity and `+inf` at zero,
`getDisparity` returns `Tx/Z` for nonzero `Z` and `+inf` at zero, and the
two are mutual inverses away from zero.  Calibration success matters: the
Q-construction division `1/tx` guarantees `Tx ≠ 0` for every model that
`fromCameraInfo` actually produces, which is what makes the round trips
exact. -/
theorem C5_depth_disparity_inverse (l r : CameraInfo) (S : StereoCameraModel)
    (h : StereoCameraModel.fromCameraInfo l r = some S) :
    (∀ d, S.getZ d =
      if d = 0 then ExtVal.inf else ExtVal.fin (-(S.right.P 0 3) / d)) ∧
    (∀ Z, S.getDisparity Z =
      if Z = 0 then ExtVal.inf else ExtVal.fin (-(S.right.P 0 3) / Z)) ∧
    (∀ Z, Z ≠ 0 → ∃ d, S.getDisparity Z = ExtVal.fin d ∧ d ≠ 0 ∧
      S.getZ d = ExtVal.fin Z) ∧
    (∀ d, d ≠ 0 → ∃ Z, S.getZ d = ExtVal.fin Z ∧ Z ≠ 0 ∧
      S.getDisparity Z = ExtVal.fin d) := by
  simp only [StereoCameraModel.fromCameraInfo] at h
  split at h
  · exact absurd h (by simp)
  · rename_i hfx
    split at h
    · exact absurd h (by simp)
    · rename_i htx
      obtain rfl := (Option.some.injEq _ _).mp h
      have hTx : -(PinholeCameraModel.fromCameraInfo r).P 0 3 ≠ 0 := by
        intro h0
        exact htx (by rw [h0, zero_div])
      refine ⟨fun d => rfl, fun Z => rfl, fun Z hZ => ?_, fun d hd => ?_⟩
      · refine ⟨-(PinholeCameraModel.fromCameraInfo r).P 0 3 / Z,
          by simp [StereoCameraModel.getDisparity, hZ], div_ne_zero hTx hZ, ?_⟩
        rw [StereoCameraModel.getZ, if_neg (div_ne_zero hTx hZ)]
        congr 1
        field_simp
        exact mul_div_cancel_left₀ _ (neg_ne_zero.mp hTx)
      · refine ⟨-(PinholeCameraModel.fromCameraInfo r).P 0 3 / d,
          by simp [StereoCameraModel.getZ, hd], div_ne_zero hTx hd, ?_⟩
        rw [StereoCameraModel.getDisparity, if_neg (div_ne_zero hTx hd)]
        congr 1
        field_simp
        exact mul_div_cancel_left₀ _ (neg_ne_zero.mp hTx)

/-- The stereo model calibrated from the concrete pair `msgW`, `msgR`
(extracted from the successful construction; the fallback of `getD` is
never used). -/
def stereoWR : StereoCameraModel :=
  (StereoCameraModel.fromCameraInfo msgW msgR).getD
    { left := PinholeCameraModel.fromCameraInfo msgW
      right := PinholeCameraModel.fromCameraInfo msgR
      Q := fun _ _ => 0 }

/-- The construction on `msgW`, `msgR` indeed succeeds and returns
`stereoWR`. -/
theorem stereoWR_eq : StereoCameraModel.fromCameraInfo msgW msgR = some stereoWR := by
  have hfx : ¬((PinholeCameraModel.fromCameraInfo msgR).P 0 0 = 0) := by
    with_unfolding_all decide
  have htx : ¬(-(PinholeCameraModel.fromCameraInfo msgR).P 0 3 /
      (PinholeCameraModel.fromCameraInfo msgR).P 0 0 = 0) := by
    with_unfolding_all decide
  simp only [stereoWR, StereoCameraModel.fromCameraInfo]
  rw [if_neg hfx, if_neg htx]
  simp

/-- Witness for C5 at the concrete calibrated pair `msgW`, `msgR`
(`Tx = 50000`): `getZ(10) = 5000` and `getDisparity(5000) = 10`. -/
theorem C5_depth_disparity_inverse_witness :
    StereoCameraModel.fromCameraInfo msgW msgR = some stereoWR ∧
    stereoWR.getZ 10 = ExtVal.fin 5000 ∧
    stereoWR.getDisparity 5000 = ExtVal.fin 10 := by
  have hright : stereoWR.right.P 0 3 = -50000 := by
    with_unfolding_all rfl
  obtain ⟨h1, h2, -, -⟩ := C5_depth_disparity_inverse msgW msgR stereoWR stereoWR_eq
  refine ⟨stereoWR_eq, ?_, ?_⟩
  · rw [h1 10, if_neg (by norm_num), hright]
    norm_num
  · rw [h2 5000, if_neg (by norm_num), hright]
    norm_num

/-- The geometric core of the round trip: for `Z > 0` the normalised
direction of `(X, Y, Z)` has dot product 1 with the unit vector obtained by
normalising `(X/Z, Y/Z, 1)`. -/
theorem dot3_normalize3_ray (X Y Z : ℝ) (hZ : 0 < Z) :
    dot3 (normalize3 (X, Y, Z))
      (X / Z / Real.sqrt (X / Z * (X / Z) + Y / Z * (Y / Z) + 1),
       Y / Z / Real.sqrt (X / Z * (X / Z) + Y / Z * (Y / Z) + 1),
       1 / Real.sqrt (X / Z * (X / Z) + Y / Z * (Y / Z) + 1)) = 1 := by
  have hZ0 : Z ≠ 0 := ne_of_gt hZ
  have hS : 0 < X ^ 2 + Y ^ 2 + Z ^ 2 := by positivity
  have hn : 0 < Real.sqrt (X ^ 2 + Y ^ 2 + Z ^ 2) := Real.sqrt_pos.mpr hS
  have hinner : X / Z * (X / Z) + Y / Z * (Y / Z) + 1
      = (X ^ 2 + Y ^ 2 + Z ^ 2) / Z ^ 2 := by
    field_simp
    ring
  have hsqrt : Real.sqrt (X / Z * (X / Z) + Y / Z * (Y / Z) + 1)
      = Real.sqrt (X ^ 2 + Y ^ 2 + Z ^ 2) / Z := by
    rw [hinner,
      show (X ^ 2 + Y ^ 2 + Z ^ 2) / Z ^ 2
          = (Real.sqrt (X ^ 2 + Y ^ 2 + Z ^ 2) / Z) ^ 2 by
        rw [div_pow, Real.sq_sqrt hS.le]]
    exact Real.sqrt_sq (by positivity)
  simp only [dot3, normalize3, norm3]
  rw [hsqrt]
  have hnn : Real.sqrt (X ^ 2 + Y ^ 2 + Z ^ 2) ≠ 0 := ne_of_gt hn
  field_simp
  nlinarith [Real.sq_sqrt hS.le, hn]

/-- Claim C6 (amended): the round trip `project3dToPixel` then
`projectPixelTo3dRay` returns a unit vector parallel to the original
direction (dot product of the normalised original direction with the ray is
exactly 1) for every point with `z > 0`, for calibrated models whose
adjusted `P` has the standard pinhole form
`[[fx, 0, cx, 0], [0, fy, cy, 0], [0, 0, 1, 0]]` with `fx ≠ 0`, `fy ≠ 0`.
For other calibrated models the claim fails, e.g. with a nonzero
translation term `P[0,3]` (see `C6_counterexample`). -/
theorem C6_roundtrip_ray (m : PinholeCameraModel) (pfx pfy pcx pcy x y z : ℚ)
    (hP : m.P = stdP pfx pfy pcx pcy) (hfx : pfx ≠ 0) (hfy : pfy ≠ 0)
    (hz : 0 < z) :
    ∃ u v ray, m.project3dToPixel (x, y, z) = PixelResult.px u v ∧
      m.projectPixelTo3dRay (u, v) = some ray ∧
      dot3 (normalize3 ((x : ℝ), (y : ℝ), (z : ℝ))) ray = 1 := by
  have hzQ : z ≠ 0 := ne_of_gt hz
  have e00 : m.P 0 0 = pfx := by rw [hP]; with_unfolding_all rfl
  have e01 : m.P 0 1 = 0 := by rw [hP]; with_unfolding_all rfl
  have e02 : m.P 0 2 = pcx := by rw [hP]; with_unfolding_all rfl
  have e03 : m.P 0 3 = 0 := by rw [hP]; with_unfolding_all rfl
  have e10 : m.P 1 0 = 0 := by rw [hP]; with_unfolding_all rfl
  have e11 : m.P 1 1 = pfy := by rw [hP]; with_unfolding_all rfl
  have e12 : m.P 1 2 = pcy := by rw [hP]; with_unfolding_all rfl
  have e13 : m.P 1 3 = 0 := by rw [hP]; with_unfolding_all rfl
  have e20 : m.P 2 0 = 0 := by rw [hP]; with_unfolding_all rfl
  have e21 : m.P 2 1 = 0 := by rw [hP]; with_unfolding_all rfl
  have e22 : m.P 2 2 = 1 := by rw [hP]; with_unfolding_all rfl
  have e23 : m.P 2 3 = 0 := by rw [hP]; with_unfolding_all rfl
  have hproj : m.project3dToPixel (x, y, z)
      = PixelResult.px ((pfx * x + pcx * z) / z) ((pfy * y + pcy * z) / z) := by
    simp only [PinholeCameraModel.project3dToPixel, e00, e01, e02, e03, e10,
      e11, e12, e13, e20, e21, e22, e23]
    norm_num [hzQ]
  have hrayx : ((pfx * x + pcx * z) / z - m.cx) / m.fx = x / z := by
    rw [PinholeCameraModel.cx, PinholeCameraModel.fx, e02, e00]
    field_simp
    ring
  have hrayy : ((pfy * y + pcy * z) / z - m.cy) / m.fy = y / z := by
    rw [PinholeCameraModel.cy, PinholeCameraModel.fy, e12, e11]
    field_simp
    ring
  have hguard : ¬(m.fx = 0 ∨ m.fy = 0) := by
    rw [PinholeCameraModel.fx, PinholeCameraModel.fy, e00, e11]
    simp [hfx, hfy]
  refine ⟨(pfx * x + pcx * z) / z, (pfy * y + pcy * z) / z,
    ((x : ℝ) / (z : ℝ) /
        Real.sqrt ((x : ℝ) / (z : ℝ) * ((x : ℝ) / (z : ℝ)) +
          (y : ℝ) / (z : ℝ) * ((y : ℝ) / (z : ℝ)) + 1),
     (y : ℝ) / (z : ℝ) /
        Real.sqrt ((x : ℝ) / (z : ℝ) * ((x : ℝ) / (z : ℝ)) +
          (y : ℝ) / (z : ℝ) * ((y : ℝ) / (z : ℝ)) + 1),
     1 /
        Real.sqrt ((x : ℝ) / (z : ℝ) * ((x : ℝ) / (z : ℝ)) +
          (y : ℝ) / (z : ℝ) * ((y : ℝ) / (z : ℝ)) + 1)),
    hproj, ?_, ?_⟩
  · simp only [PinholeCameraModel.projectPixelTo3dRay, hguard, if_false]
    rw [show ((((pfx * x + pcx * z) / z, (pfy * y + pcy * z) / z) :
        ℚ × ℚ).1 - m.cx) / m.fx = x / z from hrayx,
      show ((((pfx * x + pcx * z) / z, (pfy * y + pcy * z) / z) :
        ℚ × ℚ).2 - m.cy) / m.fy = y / z from hrayy]
    push_cast
    rfl
  · exact dot3_normalize3_ray (x : ℝ) (y : ℝ) (z : ℝ) (by exact_mod_cast hz)

/-- Counterexample to claim C6 as stated: the calibrated model built from
`msgTx` (standard intrinsics but translation term `P[0,3] = 100`) projects
the point `(0, 0, 1)` (which has `z > 0`) to pixel `(420, 240)`, and the
ray back-projected from that pixel is *not* parallel to the original
direction: the dot product with the normalised original direction is
`1 / sqrt(26/25) ≠ 1`. -/
theorem C6_counterexample :
    (PinholeCameraModel.fromCameraInfo msgTx).project3dToPixel (0, 0, 1)
      = PixelResult.px 420 240 ∧
    dot3 (normalize3 (0, 0, 1))
      (((PinholeCameraModel.fromCameraInfo msgTx).projectPixelTo3dRay
        (420, 240)).getD (0, 0, 0)) ≠ 1 := by
  constructor
  · with_unfolding_all rfl
  · have hguard : ¬((PinholeCameraModel.fromCameraInfo msgTx).fx = 0 ∨
        (PinholeCameraModel.fromCameraInfo msgTx).fy = 0) := by
      with_unfolding_all decide
    have hx : (((420 : ℚ), (240 : ℚ)).1 - (PinholeCameraModel.fromCameraInfo msgTx).cx) /
        (PinholeCameraModel.fromCameraInfo msgTx).fx = 1 / 5 := by
      with_unfolding_all rfl
    have hy : (((420 : ℚ), (240 : ℚ)).2 - (PinholeCameraModel.fromCameraInfo msgTx).cy) /
        (PinholeCameraModel.fromCameraInfo msgTx).fy = 0 := by
      with_unfolding_all rfl
    simp only [PinholeCameraModel.projectPixelTo3dRay, hguard, if_false, hx, hy,
      Option.getD_some]
    simp only [dot3, normalize3, norm3]
    push_cast
    norm_num [Real.sqrt_one]
    intro h
    have h0 : Real.sqrt (26 : ℝ) ≠ 0 := ne_of_gt (Real.sqrt_pos.mpr (by norm_num))
    rw [div_eq_one_iff_eq h0] at h
    have h2 := (Real.sqrt_inj (by norm_num) (by norm_num)).mp h
    norm_num at h2

/-- Witness for the amended C6 at the concrete model of `msgW` (standard
`P` with `fx = fy = 500`, `cx = 320`, `cy = 240`, zero translation column)
and the point `(1, 2, 3)`. -/
theorem C6_roundtrip_ray_witness :
    ∃ u v ray,
      (PinholeCameraModel.fromCameraInfo msgW).project3dToPixel (1, 2, 3)
        = PixelResult.px u v ∧
      (PinholeCameraModel.fromCameraInfo msgW).projectPixelTo3dRay (u, v)
        = some ray ∧
      dot3 (normalize3 (((1 : ℚ) : ℝ), ((2 : ℚ) : ℝ), ((3 : ℚ) : ℝ))) ray = 1 :=
  C6_roundtrip_ray (PinholeCameraModel.fromCameraInfo msgW) 500 500 320 240 1 2 3
    (by funext i j; fin_cases i <;> fin_cases j <;> with_unfolding_all rfl)
    (by norm_num) (by norm_num) (by norm_num)

/-- Claim C7 (amended): for every calibrated model whose adjusted
`fx = P[0,0]` and `fy = P[1,1]` are nonzero, and every `du`, `dv` and
`Z ≠ 0`, `getDeltaU(getDeltaX(du, Z), Z) = du` and
`getDeltaV(getDeltaY(dv, Z), Z) = dv` hold exactly.  When `fx = 0` (which a
calibrated model can have, since the monocular `fromCameraInfo` accepts any
`P`), `getDeltaX` raises `ZeroDivisionError` instead of returning a value
(see `C7_counterexample`). -/
theorem C7_delta_roundtrip (m : PinholeCameraModel) (du dv Z : ℚ)
    (hfx : m.P 0 0 ≠ 0) (hfy : m.P 1 1 ≠ 0) (hZ : Z ≠ 0) :
    (∃ dx, m.getDeltaX du Z = some dx ∧ m.getDeltaU dx Z = ExtVal.fin du) ∧
    (∃ dy, m.getDeltaY dv Z = some dy ∧ m.getDeltaV dy Z = ExtVal.fin dv) := by
  constructor
  · refine ⟨Z * du / m.P 0 0, by simp [PinholeCameraModel.getDeltaX, hfx], ?_⟩
    simp only [PinholeCameraModel.getDeltaU]
    rw [if_neg hZ]
    congr 1
    field_simp
  · refine ⟨Z * dv / m.P 1 1, by simp [PinholeCameraModel.getDeltaY, hfy], ?_⟩
    simp only [PinholeCameraModel.getDeltaV]
    rw [if_neg hZ]
    congr 1
    field_simp

/-- Counterexample to claim C7 as stated: the calibrated model built from
`msg0` has adjusted `fx = P[0,0] = 0`, and there `getDeltaX(1, 1)` raises
`ZeroDivisionError` (the unguarded Python division `Z * deltaU / fx`), so
the round trip `getDeltaU(getDeltaX(du, Z), Z)` never returns `du`. -/
theorem C7_counterexample :
    (PinholeCameraModel.fromCameraInfo msg0).getDeltaX 1 1 = none := by
  with_unfolding_all rfl

/-- Witness for the amended C7 at the concrete model of `msgW`
(`fx = fy = 500`), with `du = 3`, `dv = 4`, `Z = 2`. -/
theorem C7_delta_roundtrip_witness :
    (∃ dx, (PinholeCameraModel.fromCameraInfo msgW).getDeltaX 3 2 = some dx ∧
      (PinholeCameraModel.fromCameraInfo msgW).getDeltaU dx 2 = ExtVal.fin 3) ∧
    (∃ dy, (PinholeCameraModel.fromCameraInfo msgW).getDeltaY 4 2 = some dy ∧
      (PinholeCameraModel.fromCameraInfo msgW).getDeltaV dy 2 = ExtVal.fin 4) :=
  C7_delta_roundtrip (PinholeCameraModel.fromCameraInfo msgW) 3 4 2
    (by with_unfolding_all decide) (by with_unfolding_all decide) (by norm_num)

/-- Claim C8 (amended): `getDeltaU` returns `+inf` at `Z = 0` (for every
`deltaX`) and `fx*deltaX/Z` otherwise, with `getDeltaV` symmetric in `fy`;
`getDeltaX` performs no `Z = 0` guard: when `fx ≠ 0` it returns
`Z*deltaU/fx` unconditionally, so at `Z = 0` the caller gets `0` — but when
`fx = 0` the unguarded division raises `ZeroDivisionError` for every `Z`
(including `Z = 0`), instead of returning `0` (see `C8_counterexample`);
`getDeltaY` is symmetric in `fy`. -/
theorem C8_delta_guards (m : PinholeCameraModel) (dX dY dU dV Z : ℚ) :
    (m.getDeltaU dX Z = if Z = 0 then ExtVal.inf
      else ExtVal.fin (m.P 0 0 * dX / Z)) ∧
    (m.getDeltaV dY Z = if Z = 0 then ExtVal.inf
      else ExtVal.fin (m.P 1 1 * dY / Z)) ∧
    (m.P 0 0 ≠ 0 → m.getDeltaX dU Z = some (Z * dU / m.P 0 0)) ∧
    (m.P 0 0 ≠ 0 → m.getDeltaX dU 0 = some 0) ∧
    (m.P 0 0 = 0 → m.getDeltaX dU Z = none) ∧
    (m.P 1 1 ≠ 0 → m.getDeltaY dV Z = some (Z * dV / m.P 1 1)) ∧
    (m.P 1 1 ≠ 0 → m.getDeltaY dV 0 = some 0) ∧
    (m.P 1 1 = 0 → m.getDeltaY dV Z = none) := by
  refine ⟨rfl, rfl,
    fun h => by simp [PinholeCameraModel.getDeltaX, h],
    fun h => by simp [PinholeCameraModel.getDeltaX, h],
    fun h => by simp [PinholeCameraModel.getDeltaX, h],
    fun h => by simp [PinholeCameraModel.getDeltaY, h],
    fun h => by simp [PinholeCameraModel.getDeltaY, h],
    fun h => by simp [PinholeCameraModel.getDeltaY, h]⟩

/-- Counterexample to claim C8 as stated: on the calibrated model built
from `msg0` (adjusted `fx = 0`), `getDeltaX(7, 0)` raises
`ZeroDivisionError` — the caller does not get `0`. -/
theorem C8_counterexample :
    (PinholeCameraModel.fromCameraInfo msg0).getDeltaX 7 0 = none ∧
    (PinholeCameraModel.fromCameraInfo msg0).getDeltaX 7 0 ≠ some 0 := by
  constructor
  · with_unfolding_all rfl
  · with_unfolding_all decide

/-- Witness for the amended C8 at the concrete model of `msgW`
(`fx = 500`): the guarded forward direction at `Z = 5` and the unguarded
`getDeltaX` at `Z = 0`. -/
theorem C8_delta_guards_witness :
    (PinholeCameraModel.fromCameraInfo msgW).getDeltaU 2 5
      = ExtVal.fin ((PinholeCameraModel.fromCameraInfo msgW).P 0 0 * 2 / 5) ∧
    (PinholeCameraModel.fromCameraInfo msgW).getDeltaX 2 0 = some 0 := by
  obtain ⟨h1, -, -, h4, -, -, -, -⟩ :=
    C8_delta_guards (PinholeCameraModel.fromCameraInfo msgW) 2 0 2 0 5
  refine ⟨?_, h4 (by with_unfolding_all decide)⟩
  rw [h1, if_neg (by norm_num : ¬(5 : ℚ) = 0)]

/-- The monocular API calls covered by the purity claim: the projection,
back-projection and delta conversions, and the plain accessors.  (The
excluded rectification operations are the only methods besides
`fromCameraInfo` whose bodies assign attributes.) -/
inductive PinholeOp
  | proj3d (point : ℚ × ℚ × ℚ)
  | ray (uv : ℚ × ℚ)
  | deltaU (deltaX Z : ℚ)
  | deltaV (deltaY Z : ℚ)
  | deltaX (deltaU Z : ℚ)
  | deltaY (deltaV Z : ℚ)
  | intrinsicOp
  | distortionOp
  | rotationOp
  | projectionOp
  | fullIntrinsicOp
  | fullProjectionOp
  | cxOp
  | cyOp
  | fxOp
  | fyOp
  | txOp
  | tyOp

/-- The stereo API calls covered by the purity claim. -/
inductive StereoOp
  | proj3d (point : ℚ × ℚ × ℚ)
  | pixelTo3d (left_uv : ℚ × ℚ) (disparity : ℚ)
  | getZOp (disparity : ℚ)
  | getDisparityOp (Z : ℚ)
  | tfFrameOp

/-- The (heterogeneous) results the API calls can return. -/
inductive CallResult
  | pix (r : PixelResult)
  | ray3 (r : Option (ℝ × ℝ × ℝ))
  | rat (q : ℚ)
  | ext (e : ExtVal)
  | optRat (o : Option ℚ)
  | mat33 (M : Fin 3 → Fin 3 → ℚ)
  | mat34 (M : Fin 3 → Fin 4 → ℚ)
  | coeffs (d : Option (List ℚ))
  | pixPair (lr : PixelResult × PixelResult)
  | point3 (p : ℚ × ℚ × ℚ)
  | frame (f : Option String)

/-- State-passing semantics of a monocular call: each of these method
bodies in the source contains no assignment to `self`, so the post-state of
the call is the argument state. -/
noncomputable def PinholeOp.run :
    PinholeOp → PinholeCameraModel → CallResult × PinholeCameraModel
  | .proj3d p, m => (.pix (m.project3dToPixel p), m)
  | .ray uv, m => (.ray3 (m.projectPixelTo3dRay uv), m)
  | .deltaU dX Z, m => (.ext (m.getDeltaU dX Z), m)
  | .deltaV dY Z, m => (.ext (m.getDeltaV dY Z), m)
  | .deltaX dU Z, m => (.optRat (m.getDeltaX dU Z), m)
  | .deltaY dV Z, m => (.optRat (m.getDeltaY dV Z), m)
  | .intrinsicOp, m => (.mat33 m.intrinsicMatrix, m)
  | .distortionOp, m => (.coeffs m.distortionCoeffs, m)
  | .rotationOp, m => (.mat33 m.rotationMatrix, m)
  | .projectionOp, m => (.mat34 m.projectionMatrix, m)
  | .fullIntrinsicOp, m => (.mat33 m.fullIntrinsicMatrix, m)
  | .fullProjectionOp, m => (.mat34 m.fullProjectionMatrix, m)
  | .cxOp, m => (.rat m.cx, m)
  | .cyOp, m => (.rat m.cy, m)
  | .fxOp, m => (.rat m.fx, m)
  | .fyOp, m => (.rat m.fy, m)
  | .txOp, m => (.rat m.Tx, m)
  | .tyOp, m => (.rat m.Ty, m)

/-- State-passing semantics of a stereo call: none of these method bodies
assigns an attribute (`tfFrame` raises `AttributeError` before touching any
state), so the post-state is the argument state. -/
def StereoOp.run : StereoOp → StereoCameraModel → CallResult × StereoCameraModel
  | .proj3d p, s => (.pixPair (s.project3dToPixel p), s)
  | .pixelTo3d uv d, s => (.point3 (s.projectPixelTo3d uv d), s)
  | .getZOp d, s => (.ext (s.getZ d), s)
  | .getDisparityOp Z, s => (.ext (s.getDisparity Z), s)
  | .tfFrameOp, s => (.frame s.tfFrame, s)

/-- Claim C9: every projection, back-projection, delta-conversion and
accessor call leaves every calibration field unchanged — `K`, `D`, `R`,
`P`, `full_K`, `full_P`, width, height, binning factors, ROI, frame
identifier and timestamp of a monocular model, and the two sub-models and
`Q` of a stereo model, are identical before and after the call. -/
theorem C9_no_mutation :
    (∀ (op : PinholeOp) (m : PinholeCameraModel),
      (op.run m).2.K = m.K ∧ (op.run m).2.D = m.D ∧ (op.run m).2.R = m.R ∧
      (op.run m).2.P = m.P ∧ (op.run m).2.full_K = m.full_K ∧
      (op.run m).2.full_P = m.full_P ∧ (op.run m).2.width = m.width ∧
      (op.run m).2.height = m.height ∧ (op.run m).2.binning_x = m.binning_x ∧
      (op.run m).2.binning_y = m.binning_y ∧ (op.run m).2.raw_roi = m.raw_roi ∧
      (op.run m).2.tf_frame = m.tf_frame ∧ (op.run m).2.stamp = m.stamp) ∧
    (∀ (sop : StereoOp) (s : StereoCameraModel),
      (sop.run s).2.left = s.left ∧ (sop.run s).2.right = s.right ∧
      (sop.run s).2.Q = s.Q) := by
  constructor
  · intro op m
    cases op <;>
      exact ⟨rfl, rfl, rfl, rfl, rfl, rfl, rfl, rfl, rfl, rfl, rfl, rfl, rfl⟩
  · intro sop s
    cases sop <;> exact ⟨rfl, rfl, rfl⟩

/-- A vector of the form `(X, Y, 1)` scaled by the inverse of its norm has
unit Euclidean norm. -/
theorem norm3_ray_unit (X Y : ℝ) :
    norm3 (X / Real.sqrt (X * X + Y * Y + 1), Y / Real.sqrt (X * X + Y * Y + 1),
      1 / Real.sqrt (X * X + Y * Y + 1)) = 1 := by
  have hS : 0 < X * X + Y * Y + 1 := by nlinarith [mul_self_nonneg X, mul_self_nonneg Y]
  have hn : 0 < Real.sqrt (X * X + Y * Y + 1) := Real.sqrt_pos.mpr hS
  have hsq : Real.sqrt (X * X + Y * Y + 1) ^ 2 = X * X + Y * Y + 1 :=
    Real.sq_sqrt hS.le
  have hsum : (X / Real.sqrt (X * X + Y * Y + 1)) ^ 2 +
      (Y / Real.sqrt (X * X + Y * Y + 1)) ^ 2 +
      (1 / Real.sqrt (X * X + Y * Y + 1)) ^ 2 = 1 := by
    field_simp
    nlinarith [hsq]
  unfold norm3
  rw [hsum, Real.sqrt_one]

/-- Claim C10: `projectPixelTo3dRay` is not total — when the adjusted
`fx = P[0,0]` or `fy = P[1,1]` is zero it performs an unguarded division by
zero and raises (`none`), returning no sentinel; when both are nonzero it
always returns a vector of unit Euclidean norm whose `z` component is
strictly positive. -/
theorem C10_ray_totality_unit (m : PinholeCameraModel) (u v : ℚ) :
    ((m.P 0 0 = 0 ∨ m.P 1 1 = 0) → m.projectPixelTo3dRay (u, v) = none) ∧
    (m.P 0 0 ≠ 0 → m.P 1 1 ≠ 0 →
      ∃ r, m.projectPixelTo3dRay (u, v) = some r ∧ norm3 r = 1 ∧ 0 < r.2.2) := by
  constructor
  · intro h
    have h2 : m.fx = 0 ∨ m.fy = 0 := h
    simp only [PinholeCameraModel.projectPixelTo3dRay]
    rw [if_pos h2]
  · intro hfx hfy
    have hg : ¬(m.fx = 0 ∨ m.fy = 0) := by
      simp [PinholeCameraModel.fx, PinholeCameraModel.fy, hfx, hfy]
    have hn : 0 < Real.sqrt
        ((((u - m.cx) / m.fx : ℚ) : ℝ) * (((u - m.cx) / m.fx : ℚ) : ℝ) +
          (((v - m.cy) / m.fy : ℚ) : ℝ) * (((v - m.cy) / m.fy : ℚ) : ℝ) + 1) :=
      Real.sqrt_pos.mpr (by
        nlinarith [mul_self_nonneg ((((u - m.cx) / m.fx : ℚ) : ℝ)),
          mul_self_nonneg ((((v - m.cy) / m.fy : ℚ) : ℝ))])
    refine ⟨((((u - m.cx) / m.fx : ℚ) : ℝ) /
        Real.sqrt ((((u - m.cx) / m.fx : ℚ) : ℝ) * (((u - m.cx) / m.fx : ℚ) : ℝ) +
          (((v - m.cy) / m.fy : ℚ) : ℝ) * (((v - m.cy) / m.fy : ℚ) : ℝ) + 1),
      (((v - m.cy) / m.fy : ℚ) : ℝ) /
        Real.sqrt ((((u - m.cx) / m.fx : ℚ) : ℝ) * (((u - m.cx) / m.fx : ℚ) : ℝ) +
          (((v - m.cy) / m.fy : ℚ) : ℝ) * (((v - m.cy) / m.fy : ℚ) : ℝ) + 1),
      1 /
        Real.sqrt ((((u - m.cx) / m.fx : ℚ) : ℝ) * (((u - m.cx) / m.fx : ℚ) : ℝ) +
          (((v - m.cy) / m.fy : ℚ) : ℝ) * (((v - m.cy) / m.fy : ℚ) : ℝ) + 1)),
      ?_, ?_, ?_⟩
    · simp only [PinholeCameraModel.projectPixelTo3dRay]
      rw [if_neg hg]
    · exact norm3_ray_unit _ _
    · exact one_div_pos.mpr hn

/-- Witness for C10: at the degenerate model of `msg0` (`fx = 0`) the ray
call raises; at the model of `msgW` it returns a unit vector with positive
`z`. -/
theorem C10_ray_totality_unit_witness :
    (PinholeCameraModel.fromCameraInfo msg0).projectPixelTo3dRay (0, 0) = none ∧
    ∃ r, (PinholeCameraModel.fromCameraInfo msgW).projectPixelTo3dRay (320, 240)
      = some r ∧ norm3 r = 1 ∧ 0 < r.2.2 :=
  ⟨(C10_ray_totality_unit (PinholeCameraModel.fromCameraInfo msg0) 0 0).1
      (Or.inl (by with_unfolding_all rfl)),
   (C10_ray_totality_unit (PinholeCameraModel.fromCameraInfo msgW) 320 240).2
      (by with_unfolding_all decide) (by with_unfolding_all decide)⟩
